import Mathlib

/-!
Shallow embedding of the NiriSetup program (Go, Bubbletea TUI) for
specification checking.

The primary variant is src/NiriSetup.go: a three-screen model
(menuView, installView, actionView) whose Update function handles key
input and asynchronous completion events (statusMsg).  External effects
(package manager, validator, filesystem) are modelled by explicit
oracles passed as arguments; lipgloss styling is presentation-only and
is modelled as the identity on strings.  The secondary variant
src/unnamed/part_000 contributes the config-copy step of installNiri,
embedded separately below as installNiriP0.
-/

/-- Screens of src/NiriSetup.go: menuView, installView, actionView. -/
inductive AppState where
  | menuView
  | installView
  | actionView
deriving DecidableEq

/-- The Bubbletea model struct of src/NiriSetup.go. -/
structure Model where
  state : AppState
  choices : List String
  cursor : Nat
  selected : String
  logs : List String
  isProcessing : Bool
  progress : String
  actionMsg : String
deriving DecidableEq

/-- statusMsg: the single completion-event payload.  The Go field
err : error is modelled as Option String (none = nil error). -/
structure StatusMsg where
  status : String
  err : Option String
deriving DecidableEq

/-- tea.Cmd values returned by Update: nil, tea.Quit, or one of the four
action runners (saveLogsToFile captures the model value it is given). -/
inductive Cmd where
  | none
  | quit
  | install
  | configure
  | validate
  | saveLogs (snapshot : Model)
deriving DecidableEq

/-- Whether a command dispatches an Action Runner. -/
def Cmd.isRunner : Cmd → Bool
  | .install | .configure | .validate | .saveLogs _ => true
  | _ => false

/-- Messages delivered to Update: key input or a completion event. -/
inductive Msg where
  | key (k : String)
  | status (s : StatusMsg)
deriving DecidableEq

/-- The fixed ordered menu of initialModel. -/
def menuChoices : List String :=
  ["Install Niri", "Configure Niri", "Validate Config", "Save Logs", "Exit"]

/-- initialModel from src/NiriSetup.go (zero values for the remaining
fields, state = menuView). -/
def initialModel : Model :=
  { state := .menuView, choices := menuChoices, cursor := 0, selected := "",
    logs := [], isProcessing := false, progress := "", actionMsg := "" }

/-- The Update function of src/NiriSetup.go, line for line.  Go indexing
m.choices[m.cursor] is modelled with getD (the cursor is proved to stay
in bounds for every reachable model). -/
def Update (m : Model) (msg : Msg) : Model × Cmd :=
  match msg with
  | .key k =>
    match m.state with
    | .menuView =>
      if k = "ctrl+c" ∨ k = "q" then (m, .quit)
      else if k = "up" then
        (if m.cursor > 0 then { m with cursor := m.cursor - 1 } else m, .none)
      else if k = "down" then
        (if m.cursor < m.choices.length - 1 then { m with cursor := m.cursor + 1 } else m, .none)
      else if k = "enter" then
        let sel := m.choices.getD m.cursor ""
        let m1 := { m with selected := sel, isProcessing := true }
        if sel = "Install Niri" then ({ m1 with state := .installView }, .install)
        else if sel = "Configure Niri" then
          ({ m1 with state := .actionView, actionMsg := "Configuring Niri..." }, .configure)
        else if sel = "Validate Config" then
          ({ m1 with state := .actionView, actionMsg := "Validating Niri config..." }, .validate)
        else if sel = "Save Logs" then
          ({ m1 with state := .actionView, actionMsg := "Saving logs..." }, .saveLogs m1)
        else if sel = "Exit" then (m1, .quit)
        else (m1, .none)
      else (m, .none)
    | .installView => (m, .none)
    | .actionView => (m, .none)
  | .status s =>
    let m1 := { m with logs := m.logs ++ [s.status], isProcessing := false }
    if s.err = Option.none ∧ m.state = .installView then
      ({ m1 with state := .menuView, logs := [] }, .none)
    else if s.err = Option.none ∧ m.state = .actionView then
      ({ m1 with state := .menuView, actionMsg := s.status }, .none)
    else (m1, .none)

/-- Models reachable while the program is still live: the initial model,
plus every Update successor, where a key step whose command is tea.Quit
terminates the run (no successor) and completion events may arrive at
any point (a superset of the real event streams, in which a completion
arrives only for a previously dispatched runner). -/
inductive Reachable : Model → Prop where
  | init : Reachable initialModel
  | key {m : Model} (k : String) : Reachable m →
      (Update m (.key k)).2 ≠ Cmd.quit → Reachable (Update m (.key k)).1
  | status {m : Model} (s : StatusMsg) : Reachable m →
      Reachable (Update m (.status s)).1

/-- The inductive invariant: the menu list is never mutated, the cursor
stays below its length, and processing never happens on the menu
screen. -/
def ModelInv (m : Model) : Prop :=
  m.choices = menuChoices ∧ m.cursor < 5 ∧
    (m.isProcessing = true → m.state ≠ AppState.menuView)

lemma update_key_modelInv {m : Model} {k : String}
    (hI : ModelInv m) (hq : (Update m (Msg.key k)).2 ≠ Cmd.quit) :
    ModelInv (Update m (Msg.key k)).1 := by
  obtain ⟨hc, hcur, hp⟩ := hI
  rcases m with ⟨st, ch, cur, sel, lg, ip, pr, am⟩
  simp only at hc hcur hp
  subst hc
  cases st
  case menuView =>
    have hip : ip = false := by
      cases ip
      · rfl
      · exact absurd rfl (hp rfl)
    subst hip
    interval_cases cur <;>
    · by_cases h1 : k = "ctrl+c" ∨ k = "q"
      · exact absurd (by simp [Update, h1]) hq
      · by_cases h2 : k = "up"
        · subst h2
          simp_all [Update, ModelInv]
        · by_cases h3 : k = "down"
          · subst h3
            simp_all [Update, ModelInv, menuChoices]
          · by_cases h4 : k = "enter"
            · subst h4
              simp_all [Update, ModelInv, menuChoices]
            · simp_all [Update, ModelInv]
  case installView => exact ⟨rfl, hcur, fun _ h => AppState.noConfusion h⟩
  case actionView => exact ⟨rfl, hcur, fun _ h => AppState.noConfusion h⟩

lemma update_status_modelInv {m : Model} {s : StatusMsg}
    (hI : ModelInv m) : ModelInv (Update m (Msg.status s)).1 := by
  obtain ⟨hc, hcur, hp⟩ := hI
  rcases m with ⟨st, ch, cur, sel, lg, ip, pr, am⟩
  simp only at hc hcur hp
  subst hc
  cases st <;> cases hse : s.err <;> simp_all [Update, ModelInv]

lemma reachable_modelInv {m : Model} (h : Reachable m) : ModelInv m := by
  induction h with
  | init => exact ⟨rfl, by decide, fun h => by simp [initialModel] at h⟩
  | key k hr hq ih => exact update_key_modelInv ih hq
  | status s hr ih => exact update_status_modelInv ih

/-- Fold a list of key presses through Update, keeping only the model. -/
def pressKeys (m : Model) (ks : List String) : Model :=
  ks.foldl (fun acc k => (Update acc (Msg.key k)).1) m

/-- Claim C1, counterexample: in the run that moves the cursor to Exit
and confirms, the confirm input in Menu state dispatches no Action
Runner, and the resulting model has isProcessing = true while the
screen is still Menu. -/
theorem c1_counterexample :
    (pressKeys initialModel ["down", "down", "down", "down"]).state = AppState.menuView
    ∧ (pressKeys initialModel ["down", "down", "down", "down"]).isProcessing = false
    ∧ (Update (pressKeys initialModel ["down", "down", "down", "down"])
        (Msg.key "enter")).1.isProcessing = true
    ∧ (Update (pressKeys initialModel ["down", "down", "down", "down"])
        (Msg.key "enter")).1.state = AppState.menuView
    ∧ (Update (pressKeys initialModel ["down", "down", "down", "down"])
        (Msg.key "enter")).2.isRunner = false := by
  decide

/-- Claim C1 (amended): up to the point the program quits, isProcessing
implies the screen is not Menu; while isProcessing, key input has no
effect at all (so a second confirm dispatches nothing), and completion
events never dispatch a command; a confirm in Menu sets
isProcessing = true and issues exactly one command, which is either an
Action Runner or, for the Exit entry, quit. -/
theorem c1_amended_invariant (m : Model) (h : Reachable m) :
    (m.isProcessing = true → m.state ≠ AppState.menuView)
    ∧ (m.isProcessing = true → ∀ k : String, Update m (Msg.key k) = (m, Cmd.none))
    ∧ (∀ s : StatusMsg, (Update m (Msg.status s)).2 = Cmd.none)
    ∧ (m.state = AppState.menuView →
        (Update m (Msg.key "enter")).1.isProcessing = true
        ∧ ((Update m (Msg.key "enter")).2.isRunner = true
            ∨ (Update m (Msg.key "enter")).2 = Cmd.quit)) := by
  obtain ⟨hc, hcur, hp⟩ := reachable_modelInv h
  rcases m with ⟨st, ch, cur, sel, lg, ip, pr, am⟩
  simp only at hc hcur hp
  subst hc
  refine ⟨hp, ?_, ?_, ?_⟩
  · intro hip k
    cases st
    case menuView => exact absurd rfl (hp hip)
    case installView => rfl
    case actionView => rfl
  · intro s
    rcases s with ⟨stat, serr⟩
    cases serr <;> cases st <;> rfl
  · intro hst
    cases hst
    interval_cases cur <;>
      first
        | exact ⟨rfl, Or.inl rfl⟩
        | exact ⟨rfl, Or.inr rfl⟩

/-- Witness for c1_amended_invariant: after confirming Install, the
model is processing and a second confirm input has no effect. -/
theorem c1_witness :
    Update (Update initialModel (Msg.key "enter")).1 (Msg.key "enter")
      = ((Update initialModel (Msg.key "enter")).1, Cmd.none) :=
  (c1_amended_invariant _
      (Reachable.key "enter" Reachable.init (by decide))).2.1 (by decide) "enter"

/-- Claim C5: the cursor always stays below the length of the action
list, up and down moves clamp at the bounds without wraparound, and the
cursor never changes while the current screen is not Menu. -/
theorem c5_cursor_bounds (m : Model) (h : Reachable m) :
    m.cursor < m.choices.length
    ∧ (∀ e : Msg, m.state ≠ AppState.menuView → (Update m e).1.cursor = m.cursor)
    ∧ (m.state = AppState.menuView → m.cursor = 0 →
        (Update m (Msg.key "up")).1.cursor = 0)
    ∧ (m.state = AppState.menuView → m.cursor = m.choices.length - 1 →
        (Update m (Msg.key "down")).1.cursor = m.cursor) := by
  obtain ⟨hc, hcur, hp⟩ := reachable_modelInv h
  rcases m with ⟨st, ch, cur, sel, lg, ip, pr, am⟩
  simp only at hc hcur hp
  subst hc
  refine ⟨hcur, ?_, ?_, ?_⟩
  · intro e hst
    cases st
    case menuView => exact absurd rfl hst
    all_goals
      cases e with
      | key k => rfl
      | status s =>
        rcases s with ⟨stat, serr⟩
        cases serr <;> rfl
  · intro hst h0
    cases hst
    cases h0
    rfl
  · intro hst hlen
    cases hst
    interval_cases cur <;> simp_all [Update, menuChoices]

/-- Witness for c5_cursor_bounds: while the Install runner is
processing, a completion event leaves the cursor unchanged. -/
theorem c5_witness :
    (Update (Update initialModel (Msg.key "enter")).1
        (Msg.status { status := "x", err := Option.none })).1.cursor
      = (Update initialModel (Msg.key "enter")).1.cursor :=
  (c5_cursor_bounds _ (Reachable.key "enter" Reachable.init (by decide))).2.1
    (Msg.status { status := "x", err := Option.none }) (by decide)

/-- Claim C2, counterexample: a completion event whose result carries an
error (a failed install) does not transition the screen at all; the
controller stays on the install screen, so the transition is in fact
conditioned on the result reporting success. -/
theorem c2_counterexample :
    (Update initialModel (Msg.key "enter")).1.state = AppState.installView
    ∧ (Update (Update initialModel (Msg.key "enter")).1
        (Msg.status { status := "Failed to install niri", err := some "pkg: not found" })).1.state
        = AppState.installView
    ∧ (Update (Update initialModel (Msg.key "enter")).1
        (Msg.status { status := "Failed to install niri", err := some "pkg: not found" })).1.isProcessing
        = false := by
  decide

/-- Claim C2 (amended): every completion event appends the result
message to the log, sets isProcessing to false, and dispatches nothing;
only when the result carries no error does the controller then return
to Menu, clearing the log for an install-class action (retaining no
message) and retaining the message as the transient menu message for
other actions; when the result carries an error the screen does not
change. -/
theorem c2_amended_completion (m : Model) (s : StatusMsg) :
    (Update m (Msg.status s)).2 = Cmd.none
    ∧ (s.err = Option.none → m.state = AppState.installView →
        (Update m (Msg.status s)).1
          = { m with state := AppState.menuView, logs := [], isProcessing := false })
    ∧ (s.err = Option.none → m.state = AppState.actionView →
        (Update m (Msg.status s)).1
          = { m with state := AppState.menuView,
                     logs := m.logs ++ [s.status],
                     isProcessing := false,
                     actionMsg := s.status })
    ∧ (s.err ≠ Option.none →
        (Update m (Msg.status s)).1
          = { m with logs := m.logs ++ [s.status], isProcessing := false })
    ∧ (s.err = Option.none → m.state = AppState.menuView →
        (Update m (Msg.status s)).1
          = { m with logs := m.logs ++ [s.status], isProcessing := false }) := by
  rcases m with ⟨st, ch, cur, sel, lg, ip, pr, am⟩
  rcases s with ⟨stat, serr⟩
  cases serr <;> cases st <;>
    refine ⟨rfl, fun h1 h2 => ?_, fun h1 h2 => ?_, fun h1 => ?_, fun h1 h2 => ?_⟩ <;>
      first | rfl | simp_all

/-- Witness for c2_amended_completion: a successful install completion
returns to Menu with the log cleared. -/
theorem c2_witness :
    (Update (Update initialModel (Msg.key "enter")).1
        (Msg.status { status := "done", err := Option.none })).1
      = { (Update initialModel (Msg.key "enter")).1 with
          state := AppState.menuView, logs := [], isProcessing := false } :=
  (c2_amended_completion _ _).2.1 rfl (by decide)

/-- Claim C7, counterexample: while the install runner is processing,
both quit keys are silently discarded instead of quitting. -/
theorem c7_counterexample :
    (Update initialModel (Msg.key "enter")).1.state = AppState.installView
    ∧ Update (Update initialModel (Msg.key "enter")).1 (Msg.key "q")
        = ((Update initialModel (Msg.key "enter")).1, Cmd.none)
    ∧ Update (Update initialModel (Msg.key "enter")).1 (Msg.key "ctrl+c")
        = ((Update initialModel (Msg.key "enter")).1, Cmd.none) := by
  decide

/-- Claim C7 (amended): a quit input is accepted and terminates the
program in the Menu state; in the running screens all key input,
including both quit keys, is discarded until the completion event
arrives. -/
theorem c7_amended_quit (m : Model) :
    (m.state = AppState.menuView →
      (Update m (Msg.key "q")).2 = Cmd.quit
        ∧ (Update m (Msg.key "ctrl+c")).2 = Cmd.quit)
    ∧ (m.state ≠ AppState.menuView → ∀ k : String, Update m (Msg.key k) = (m, Cmd.none)) := by
  rcases m with ⟨st, ch, cur, sel, lg, ip, pr, am⟩
  constructor
  · intro hst
    cases hst
    exact ⟨rfl, rfl⟩
  · intro hst k
    cases st
    case menuView => exact absurd rfl hst
    case installView => rfl
    case actionView => rfl

/-- Witness for c7_amended_quit: quit works on the menu and is
discarded while the install runner is processing. -/
theorem c7_witness :
    (Update initialModel (Msg.key "q")).2 = Cmd.quit
    ∧ Update (Update initialModel (Msg.key "enter")).1 (Msg.key "q")
        = ((Update initialModel (Msg.key "enter")).1, Cmd.none) :=
  ⟨((c7_amended_quit initialModel).1 rfl).1,
   (c7_amended_quit _).2 (by decide) "q"⟩

/-- One menu line per choice, with the cursor marker, as built by the
loop in renderMenuView. -/
def renderChoiceLines (cursor : Nat) : Nat → List String → String
  | _, [] => ""
  | i, c :: rest =>
    (if cursor = i then ">" else " ") ++ " " ++ c ++ "\n"
      ++ renderChoiceLines cursor (i + 1) rest

/-- renderMenuView of src/NiriSetup.go.  Lipgloss styling and padding
are presentation-only and modelled as the identity; the Go assignment
that resets actionMsg inside this function acts on a value-receiver
copy of the model and therefore has no effect outside the call, so the
render is a pure function of the model. -/
def renderMenuView (m : Model) : String :=
  let s := "NiriSetup Assistant for FreeBSD\n\n" ++ renderChoiceLines m.cursor 0 m.choices
  if m.actionMsg ≠ "" then s ++ "\n" ++ m.actionMsg ++ "\n" else s

/-- renderInstallView of src/NiriSetup.go (styling as identity). -/
def renderInstallView (m : Model) : String :=
  "Installing Niri...\n\n" ++ String.join (m.logs.map (fun l => l ++ "\n"))
    ++ "Please wait...\n"

/-- renderActionView of src/NiriSetup.go (styling as identity). -/
def renderActionView (m : Model) : String :=
  m.actionMsg ++ "\n\nPlease wait..."

/-- View of src/NiriSetup.go. -/
def View (m : Model) : String :=
  match m.state with
  | .menuView => renderMenuView m
  | .installView => renderInstallView m
  | .actionView => renderActionView m

/-- Does pat occur at the head of the second list? -/
def leadsWith : List Char → List Char → Bool
  | [], _ => true
  | _ :: _, [] => false
  | a :: as, b :: bs => (a == b) && leadsWith as bs

/-- Does pat occur anywhere in the list? -/
def occursAnywhere (pat : List Char) : List Char → Bool
  | [] => leadsWith pat []
  | b :: rest => leadsWith pat (b :: rest) || occursAnywhere pat rest

/-- Substring test on strings, used to state that a message is shown
inside a rendered screen or contained in a result message. -/
def strOccurs (pat hay : String) : Bool := occursAnywhere pat.data hay.data

/-- The model produced by selecting Configure Niri and receiving its
successful completion event: back on the Menu screen with the result
message retained in actionMsg. -/
def configureDoneMenu : Model :=
  (Update (Update (Update initialModel (Msg.key "down")).1 (Msg.key "enter")).1
    (Msg.status { status := "Niri configuration completed successfully.",
                  err := Option.none })).1

/-- Claim C10: evaluation of the code at the failing input.  After a
completed non-install action returns to Menu, the retained message is
displayed on the next render — but rendering does not change the model
(the reset of actionMsg in renderMenuView happens on a value-receiver
copy), so after any further input the message is still retained and is
displayed again on the following render of the Menu screen, i.e. it is
not shown exactly once. -/
theorem c10_code_bug :
    configureDoneMenu.state = AppState.menuView
    ∧ strOccurs "Niri configuration completed successfully." (View configureDoneMenu) = true
    ∧ (Update configureDoneMenu (Msg.key "up")).1.actionMsg
        = "Niri configuration completed successfully."
    ∧ strOccurs "Niri configuration completed successfully."
        (View (Update configureDoneMenu (Msg.key "up")).1) = true := by
  decide

lemma strData_append (s t : String) : (s ++ t).data = s.data ++ t.data := rfl

lemma strAppend_empty (s : String) : s ++ "" = s := by
  cases s with
  | mk d => exact congrArg String.mk (List.append_nil d)

lemma strAppend_assoc (a b c : String) : a ++ b ++ c = a ++ (b ++ c) := by
  cases a; cases b; cases c
  exact congrArg String.mk (List.append_assoc _ _ _)

/-- pat occurs inside hay as a contiguous substring. -/
def SubstrOf (pat hay : String) : Prop :=
  ∃ a b : List Char, hay.data = a ++ pat.data ++ b

/-- Result of one external sudo pkg install -y invocation: exit status
zero, or a nonzero exit carrying the combined output text. -/
inductive PkgResult where
  | ok
  | fail (out : String)
deriving DecidableEq

def PkgResult.isFail : PkgResult → Bool
  | .ok => false
  | .fail _ => true

/-- The fixed ordered package list of installNiri (identical in both
source variants). -/
def pkgs : List String :=
  ["niri", "wlroots", "xwayland-satellite", "seatd", "waybar", "grim", "jq",
   "wofi", "alacritty", "pam_xdg", "fuzzel", "swaylock", "foot", "wlsunset",
   "swaybg", "mako", "swayidle"]

/-- The install loop of installNiri in src/NiriSetup.go over an oracle
for the external package manager: returns the resulting statusMsg and
the list of packages actually attempted, accumulating one success line
per installed package and joining them on success. -/
def installLoop (run : String → PkgResult) :
    List String → List String → StatusMsg × List String
  | [], logs => ({ status := String.intercalate "\n" logs, err := Option.none }, [])
  | p :: rest, logs =>
    match run p with
    | .fail out => ({ status := "Failed to install " ++ p, err := some out }, [p])
    | .ok =>
      let r := installLoop run rest (logs ++ ["Successfully installed " ++ p])
      (r.1, p :: r.2)

/-- The statusMsg returned by installNiri in src/NiriSetup.go. -/
def installNiri (run : String → PkgResult) : StatusMsg :=
  (installLoop run pkgs []).1

/-- The packages installNiri actually invokes the package manager on. -/
def installAttempts (run : String → PkgResult) : List String :=
  (installLoop run pkgs []).2

lemma installLoop_first_fail (run : String → PkgResult) :
    ∀ (l logs : List String) (k : Nat), k < l.length →
      (∀ i, i < k → run (l.getD i "") = PkgResult.ok) →
      (run (l.getD k "")).isFail = true →
      (installLoop run l logs).2 = l.take (k + 1)
      ∧ (installLoop run l logs).1.err ≠ Option.none
      ∧ (installLoop run l logs).1.status = "Failed to install " ++ l.getD k "" := by
  intro l
  induction l with
  | nil => intro logs k hk; simp at hk
  | cons p rest ih =>
    intro logs k hk hok hfail
    cases k with
    | zero =>
      cases hrp : run p with
      | ok =>
        rw [List.getD_cons_zero, hrp] at hfail
        simp [PkgResult.isFail] at hfail
      | fail out => simp [installLoop, hrp]
    | succ j =>
      have hp : run p = PkgResult.ok := by
        have := hok 0 (Nat.succ_pos j)
        rwa [List.getD_cons_zero] at this
      have hok' : ∀ i, i < j → run (rest.getD i "") = PkgResult.ok := by
        intro i hi
        have := hok (i + 1) (by omega)
        rwa [List.getD_cons_succ] at this
      have hfail' : (run (rest.getD j "")).isFail = true := by
        rwa [List.getD_cons_succ] at hfail
      have hk' : j < rest.length := by simpa using hk
      obtain ⟨h1, h2, h3⟩ :=
        ih (logs ++ ["Successfully installed " ++ p]) j hk' hok' hfail'
      refine ⟨?_, ?_, ?_⟩
      · simp [installLoop, hp, h1]
      · simpa [installLoop, hp] using h2
      · simpa [installLoop, hp, List.getD_cons_succ] using h3

/-- Claim C3: if every package before the k-th succeeds and the k-th
fails, installNiri attempts exactly the first k+1 packages of the fixed
ordered list (never any later one) and returns a failed result whose
message names the k-th package. -/
theorem c3_install_first_fail (run : String → PkgResult) (k : Nat)
    (hk : k < pkgs.length)
    (hok : ∀ i, i < k → run (pkgs.getD i "") = PkgResult.ok)
    (hfail : (run (pkgs.getD k "")).isFail = true) :
    installAttempts run = pkgs.take (k + 1)
    ∧ (installNiri run).err ≠ Option.none
    ∧ SubstrOf (pkgs.getD k "") (installNiri run).status := by
  obtain ⟨h1, h2, h3⟩ := installLoop_first_fail run pkgs [] k hk hok hfail
  refine ⟨h1, h2, ⟨("Failed to install ").data, [], ?_⟩⟩
  have : (installNiri run).status = "Failed to install " ++ pkgs.getD k "" := h3
  rw [this]
  simp [strData_append]

/-- Package-manager oracle where exactly wlroots (index 1) fails. -/
def failWlroots : String → PkgResult :=
  fun p => if p = "wlroots" then PkgResult.fail "pkg: repository down" else PkgResult.ok

/-- Witness for c3_install_first_fail at the oracle failing on
wlroots. -/
theorem c3_witness :
    installAttempts failWlroots = pkgs.take 2
    ∧ (installNiri failWlroots).err ≠ Option.none
    ∧ SubstrOf (pkgs.getD 1 "") (installNiri failWlroots).status :=
  c3_install_first_fail failWlroots 1 (by decide) (by decide) (by decide)

/-- validateNiriConfig of src/NiriSetup.go over the external validator
invocation, modelled by its exit code and combined stdout+stderr
output; a nonzero exit is exactly the case in which CombinedOutput
returns a non-nil error, which the code passes through in err. -/
def validateNiriConfig (exitCode : Nat) (out : String) : StatusMsg :=
  if exitCode ≠ 0 then
    { status := "Validation failed: " ++ out,
      err := some ("exit status " ++ toString exitCode) }
  else
    { status := "Niri configuration is valid.", err := Option.none }

/-- Claim C8, counterexample: on a failing validation the message is
not the combined validator output itself but that output preceded by a
fixed failure label. -/
theorem c8_counterexample :
    (validateNiriConfig 1 "syntax error at line 3").err ≠ Option.none
    ∧ (validateNiriConfig 1 "syntax error at line 3").status
        = "Validation failed: syntax error at line 3"
    ∧ (validateNiriConfig 1 "syntax error at line 3").status
        ≠ "syntax error at line 3" := by
  decide

/-- Claim C8 (amended): the succeeded flag (err = none) holds exactly
when the validator exits with status zero; on failure the message is
the fixed label followed by the combined output, and on success it is a
fixed success string. -/
theorem c8_amended_validate (exitCode : Nat) (out : String) :
    ((validateNiriConfig exitCode out).err = Option.none ↔ exitCode = 0)
    ∧ (exitCode ≠ 0 →
        (validateNiriConfig exitCode out).status = "Validation failed: " ++ out)
    ∧ (exitCode = 0 →
        (validateNiriConfig exitCode out).status = "Niri configuration is valid.") := by
  by_cases h : exitCode = 0 <;> simp [validateNiriConfig, h]

/-- Witness for c8_amended_validate at exit statuses 0 and 2. -/
theorem c8_witness :
    ((validateNiriConfig 0 "").err = Option.none ↔ (0 : Nat) = 0)
    ∧ (validateNiriConfig 2 "bad").status = "Validation failed: " ++ "bad" :=
  ⟨(c8_amended_validate 0 "").1, (c8_amended_validate 2 "bad").2.1 (by decide)⟩

/-- The fixed log file path of saveLogsToFile: filepath.Join of the
system temporary directory and nirisetup.log. -/
def logFilePath (tmpDir : String) : String := tmpDir ++ "/nirisetup.log"

/-- The bytes the save loop writes: each log line newline-terminated,
in order. -/
def logBody : List String → String
  | [] => ""
  | l :: rest => l ++ "\n" ++ logBody rest

/-- The write loop of saveLogsToFile: appends line i to the file
contents unless the i-th WriteString call fails, in which case it stops
(partial writes remain). -/
def writeLogs (writeOk : Nat → Bool) : List String → Nat → String → String × Bool
  | [], _, c => (c, true)
  | l :: rest, i, c =>
    if writeOk i then writeLogs writeOk rest (i + 1) (c ++ (l ++ "\n")) else (c, false)

/-- saveLogsToFile of src/NiriSetup.go over oracles for the open call
and each write call; returns the statusMsg and the resulting file
contents, the file having been opened in append+create mode with prior
contents given by the last argument. -/
def saveLogsToFile (tmpDir : String) (canOpen : Bool) (writeOk : Nat → Bool)
    (logs : List String) (contents : String) : StatusMsg × String :=
  if canOpen then
    match writeLogs writeOk logs 0 contents with
    | (c, true) => ({ status := "Logs saved to " ++ logFilePath tmpDir, err := Option.none }, c)
    | (c, false) => ({ status := "Failed to write to log file", err := some "write error" }, c)
  else
    ({ status := "Failed to open log file for writing", err := some "open error" }, contents)

lemma writeLogs_all_ok (writeOk : Nat → Bool) (hw : ∀ i, writeOk i = true) :
    ∀ (logs : List String) (i : Nat) (c : String),
      writeLogs writeOk logs i c = (c ++ logBody logs, true) := by
  intro logs
  induction logs with
  | nil => intro i c; simp [writeLogs, logBody, strAppend_empty]
  | cons l rest ih =>
    intro i c
    rw [writeLogs, hw i, if_pos rfl, ih (i + 1), logBody]
    rw [strAppend_assoc]

/-- Claim C9: with the file openable and every write succeeding, Save
Logs appends each log line newline-terminated in order to the file at
the fixed path, reports success with a message containing that path,
and a second run with the same log appends the same content again
(duplication, not overwrite). -/
theorem c9_save_logs_append (tmpDir : String) (writeOk : Nat → Bool)
    (logs : List String) (contents : String) (hw : ∀ i, writeOk i = true) :
    (saveLogsToFile tmpDir true writeOk logs contents).2 = contents ++ logBody logs
    ∧ (saveLogsToFile tmpDir true writeOk logs contents).1.err = Option.none
    ∧ SubstrOf (logFilePath tmpDir) (saveLogsToFile tmpDir true writeOk logs contents).1.status
    ∧ (saveLogsToFile tmpDir true writeOk logs
          (saveLogsToFile tmpDir true writeOk logs contents).2).2
        = contents ++ logBody logs ++ logBody logs := by
  have hsave : ∀ c : String,
      saveLogsToFile tmpDir true writeOk logs c
        = ({ status := "Logs saved to " ++ logFilePath tmpDir, err := Option.none },
           c ++ logBody logs) := by
    intro c
    simp [saveLogsToFile, writeLogs_all_ok writeOk hw logs 0 c]
  refine ⟨by rw [hsave], by rw [hsave], ⟨("Logs saved to ").data, [], ?_⟩, ?_⟩
  · rw [hsave]
    simp [strData_append]
  · rw [hsave, hsave]

/-- Witness for c9_save_logs_append: saving the two-line log twice into
an initially empty file duplicates its body. -/
theorem c9_witness :
    (saveLogsToFile "/tmp" true (fun _ => true) ["a", "b"] "").2 = "" ++ logBody ["a", "b"]
    ∧ (saveLogsToFile "/tmp" true (fun _ => true) ["a", "b"]
          (saveLogsToFile "/tmp" true (fun _ => true) ["a", "b"] "").2).2
        = "" ++ logBody ["a", "b"] ++ logBody ["a", "b"] :=
  ⟨(c9_save_logs_append "/tmp" (fun _ => true) ["a", "b"] "" (fun _ => rfl)).1,
   (c9_save_logs_append "/tmp" (fun _ => true) ["a", "b"] "" (fun _ => rfl)).2.2.2⟩

/-- Result of setupEnvironment in src/NiriSetup.go: log.Fatalf aborts
the process, otherwise the call returns, recording the permission mode
used when the runtime directory had to be created. -/
inductive SetupResult where
  | fatal (msg : String)
  | ok (createdMode : Option Nat)
deriving DecidableEq

/-- The runtime directory path, deterministically named from the
effective user ID. -/
def runtimeDirPath (euid : Nat) : String :=
  "/tmp/" ++ toString euid ++ "-runtime-dir"

/-- setupEnvironment of src/NiriSetup.go over an oracle for the
filesystem: existingOwner is the owner UID of the runtime directory
when it exists (none when the stat reports not-exist), mkdirOk tells
whether the Mkdir call succeeds.  The XDG_RUNTIME_DIR variable is set
to runtimeDirPath euid before either branch runs. -/
def setupEnvironment (euid : Nat) (existingOwner : Option Nat) (mkdirOk : Bool) : SetupResult :=
  match existingOwner with
  | Option.none =>
    if mkdirOk then SetupResult.ok (some 0o700)
    else SetupResult.fatal "Failed to create runtime directory"
  | some uid =>
    if uid ≠ euid then
      SetupResult.fatal ("XDG_RUNTIME_DIR " ++ runtimeDirPath euid ++ " is owned by another UID")
    else SetupResult.ok Option.none

/-- main of src/NiriSetup.go up to UI construction: setupEnvironment
runs first, and only if it returns is initialModel built and the
program started (none = the process aborted before any UI state
existed). -/
def mainStartup (euid : Nat) (existingOwner : Option Nat) (mkdirOk : Bool) : Option Model :=
  match setupEnvironment euid existingOwner mkdirOk with
  | SetupResult.fatal _ => Option.none
  | SetupResult.ok _ => some initialModel

/-- Claim C6: when the runtime directory is absent it is created with
mode 0700; when it exists with an owner UID different from the
effective user ID, setupEnvironment aborts fatally and the UI model is
never constructed; when the owner matches, startup proceeds into the
UI. -/
theorem c6_setup_environment (euid owner : Nat) (mkdirOk : Bool) :
    (mkdirOk = true → setupEnvironment euid Option.none mkdirOk = SetupResult.ok (some 0o700))
    ∧ (owner ≠ euid →
        (∃ s, setupEnvironment euid (some owner) mkdirOk = SetupResult.fatal s)
        ∧ mainStartup euid (some owner) mkdirOk = Option.none)
    ∧ (owner = euid → mainStartup euid (some owner) mkdirOk = some initialModel) := by
  refine ⟨fun h => by simp [setupEnvironment, h], fun h => ?_, fun h => ?_⟩
  · exact ⟨⟨"XDG_RUNTIME_DIR " ++ runtimeDirPath euid ++ " is owned by another UID",
      by simp [setupEnvironment, h]⟩, by simp [mainStartup, setupEnvironment, h]⟩
  · simp [mainStartup, setupEnvironment, h]

/-- Witness for c6_setup_environment: a directory owned by root while
running as UID 1000 aborts startup before the UI. -/
theorem c6_witness :
    (∃ s, setupEnvironment 1000 (some 0) true = SetupResult.fatal s)
    ∧ mainStartup 1000 (some 0) true = Option.none :=
  (c6_setup_environment 1000 0 true).2.1 (by decide)

/-- Filesystem oracle for the installNiri of src/unnamed/part_000: the
os.Getwd result, the UserHomeDir value (whose error the code ignores),
and the errors, if any, of the MkdirAll and copyFile calls. -/
structure FsOracle where
  getwd : Except String String
  homeDir : String
  mkdirAllErr : Option String
  copyErr : Option String

/-- Package loop of the part_000 installNiri: the first failing package
with its output, if any, together with the list of packages actually
attempted. -/
def installPkgsP0 (run : String → PkgResult) :
    List String → Option (String × String) × List String
  | [] => (Option.none, [])
  | p :: rest =>
    match run p with
    | .fail out => (some (p, out), [p])
    | .ok =>
      let r := installPkgsP0 run rest
      (r.1, p :: r.2)

/-- Observable outcome of the part_000 installNiri: the statusMsg, the
(src, dst) pair passed to copyFile when that call was made, and the
directory passed to MkdirAll when that call was made. -/
structure InstallOutcome where
  msg : StatusMsg
  copyCalled : Option (String × String)
  mkdirCalled : Option String
deriving DecidableEq

/-- installNiri of src/unnamed/part_000 (the variant that copies
config.kdl): install each package in order stopping at the first
failure, then resolve the working directory, create the per-user config
directory with MkdirAll, and copy config.kdl into it.  filepath.Join is
modelled as slash concatenation. -/
def installNiriP0 (run : String → PkgResult) (fs : FsOracle) : InstallOutcome :=
  match (installPkgsP0 run pkgs).1 with
  | some pf =>
    ⟨{ status := "Failed to install " ++ pf.1, err := some pf.2 },
     Option.none, Option.none⟩
  | Option.none =>
    match fs.getwd with
    | .error e =>
      ⟨{ status := "Failed to get current working directory", err := some e },
       Option.none, Option.none⟩
    | .ok workingDir =>
      let sourceConfigPath := workingDir ++ "/config.kdl"
      let configDir := fs.homeDir ++ "/.config/niri"
      let destConfigPath := configDir ++ "/config.kdl"
      match fs.mkdirAllErr with
      | some e =>
        ⟨{ status := "Failed to create niri configuration directory", err := some e },
         Option.none, some configDir⟩
      | Option.none =>
        match fs.copyErr with
        | some e =>
          ⟨{ status := "Failed to copy config.kdl", err := some e },
           some (sourceConfigPath, destConfigPath), some configDir⟩
        | Option.none =>
          ⟨{ status := "Niri installation and configuration completed successfully.",
             err := Option.none },
           some (sourceConfigPath, destConfigPath), some configDir⟩

lemma installPkgsP0_none_iff (run : String → PkgResult) :
    ∀ l : List String,
      (installPkgsP0 run l).1 = Option.none ↔ ∀ p, p ∈ l → run p = PkgResult.ok := by
  intro l
  induction l with
  | nil => simp [installPkgsP0]
  | cons p rest ih =>
    cases hrp : run p with
    | ok => simp [installPkgsP0, hrp, ih]
    | fail out => simp [installPkgsP0, hrp]

/-- Claim C4: when every package installs, installNiri creates the
per-user config directory and copies config.kdl from the working
directory into it, returning a single aggregate success result; when
the copy fails after all packages installed, the result is still a
failure; and when any package fails, copyFile is never invoked. -/
theorem c4_install_copies_config (run : String → PkgResult) (fs : FsOracle) (cwd : String) :
    ((∀ p, p ∈ pkgs → run p = PkgResult.ok) → fs.getwd = Except.ok cwd →
      fs.mkdirAllErr = Option.none → fs.copyErr = Option.none →
        installNiriP0 run fs
          = ⟨{ status := "Niri installation and configuration completed successfully.",
               err := Option.none },
             some (cwd ++ "/config.kdl", fs.homeDir ++ "/.config/niri" ++ "/config.kdl"),
             some (fs.homeDir ++ "/.config/niri")⟩)
    ∧ ((∀ p, p ∈ pkgs → run p = PkgResult.ok) → fs.copyErr ≠ Option.none →
        (installNiriP0 run fs).msg.err ≠ Option.none)
    ∧ ((∃ p, p ∈ pkgs ∧ run p ≠ PkgResult.ok) →
        (installNiriP0 run fs).copyCalled = Option.none) := by
  refine ⟨?_, ?_, ?_⟩
  · intro hall hg hm hc
    have h0 : (installPkgsP0 run pkgs).1 = Option.none :=
      (installPkgsP0_none_iff run pkgs).2 hall
    simp [installNiriP0, h0, hg, hm, hc]
  · intro hall hc
    have h0 : (installPkgsP0 run pkgs).1 = Option.none :=
      (installPkgsP0_none_iff run pkgs).2 hall
    cases hg : fs.getwd with
    | error e => simp [installNiriP0, h0, hg]
    | ok wd =>
      cases hm : fs.mkdirAllErr with
      | some e => simp [installNiriP0, h0, hg, hm]
      | none =>
        cases hcc : fs.copyErr with
        | none => exact absurd hcc hc
        | some e => simp [installNiriP0, h0, hg, hm, hcc]
  · rintro ⟨p, hp, hne⟩
    cases h0 : (installPkgsP0 run pkgs).1 with
    | none => exact absurd ((installPkgsP0_none_iff run pkgs).1 h0 p hp) hne
    | some pf => simp [installNiriP0, h0]

/-- Filesystem oracle with every call succeeding. -/
def fsAllOk : FsOracle :=
  ⟨Except.ok "/home/user/NiriSetup", "/home/user", Option.none, Option.none⟩

/-- Filesystem oracle where only the config copy fails. -/
def fsCopyFails : FsOracle :=
  ⟨Except.ok "/home/user/NiriSetup", "/home/user", Option.none, some "permission denied"⟩

/-- Witness for c4_install_copies_config: full success performs the
copy, a copy failure yields a failed result, and a package failure
never reaches copyFile. -/
theorem c4_witness :
    installNiriP0 (fun _ => PkgResult.ok) fsAllOk
      = ⟨{ status := "Niri installation and configuration completed successfully.",
           err := Option.none },
         some ("/home/user/NiriSetup" ++ "/config.kdl",
               fsAllOk.homeDir ++ "/.config/niri" ++ "/config.kdl"),
         some (fsAllOk.homeDir ++ "/.config/niri")⟩
    ∧ (installNiriP0 (fun _ => PkgResult.ok) fsCopyFails).msg.err ≠ Option.none
    ∧ (installNiriP0 (fun _ => PkgResult.fail "no network") fsAllOk).copyCalled
        = Option.none :=
  ⟨(c4_install_copies_config (fun _ => PkgResult.ok) fsAllOk "/home/user/NiriSetup").1
      (fun _ _ => rfl) rfl rfl rfl,
   (c4_install_copies_config (fun _ => PkgResult.ok) fsCopyFails "/home/user/NiriSetup").2.1
      (fun _ _ => rfl) (by decide),
   (c4_install_copies_config (fun _ => PkgResult.fail "no network") fsAllOk "x").2.2
      ⟨"niri", by decide, by decide⟩⟩
